import Mathlib

/-!
Shallow embedding of the core of `src/transmittal.py` (the `update_excel`
matcher/updater and the decision logic of `main` around it), together with
proofs of the behavioural properties claimed for it.

The pandas `DataFrame` is modelled column-oriented: an ordered list of named
columns, each an ordered list of cell values aligned by row position.
-/

set_option autoImplicit false

deriving instance DecidableEq for Except

namespace Transmittal

/-- A cell value of the tabular dataset: a string, a missing value (`NaN`),
or an integer.  These are the value shapes the program's matching logic can
observe after `astype(str)`. -/
inductive Value where
  | str (s : String)
  | nan
  | int (n : Int)
deriving DecidableEq

/-- Python `str(v)` as applied by `.astype(str)`: strings unchanged, `NaN`
renders as `"nan"`, integers as their decimal text. -/
def pyStr : Value → String
  | .str s => s
  | .nan => "nan"
  | .int n => toString n

/-- The whitespace characters removed by Python `str.strip()` (ASCII range). -/
def pyIsSpace (c : Char) : Bool :=
  c == ' ' || c == '\t' || c == '\n' || c == '\r' || c == '\x0b' || c == '\x0c'

/-- Python `str.strip()`: remove leading and trailing whitespace. -/
def pyStrip (s : String) : String :=
  ⟨((s.data.dropWhile pyIsSpace).reverse.dropWhile pyIsSpace).reverse⟩

/-- Lower-case one character (Python `str.lower()` on the ASCII range). -/
def pyLowerChar (c : Char) : Char :=
  if 'A' ≤ c && c ≤ 'Z' then Char.ofNat (c.toNat + 32) else c

/-- Python `str.lower()`. -/
def pyLower (s : String) : String := ⟨s.data.map pyLowerChar⟩

/-- Python `.strip().lower()`: trim leading/trailing whitespace, lower-case. -/
def pyNorm (s : String) : String := pyLower (pyStrip s)

/-- A pandas `DataFrame`: ordered named columns, cells aligned by row index. -/
abbrev DataFrame := List (String × List Value)

/-- The column names of the dataset, in order (`df.columns`). -/
def colNames (df : DataFrame) : List String := df.map Prod.fst

/-- `df[c]`: the first column named `c`; `none` models the `KeyError` raised
by pandas when no column has that name. -/
def getCol : DataFrame → String → Option (List Value)
  | [], _ => none
  | p :: rest, c => if p.1 = c then some p.2 else getCol rest c

/-- In a column, overwrite the positions selected by a boolean mask with `v`
(the column update performed by `df.loc[mask, c] = v` on an existing column). -/
def setMasked (col : List Value) (mask : List Bool) (v : Value) : List Value :=
  List.zipWith (fun x b => if b then v else x) col mask

/-- Apply a masked write to one named column of the dataset, leaving columns
with other names alone. -/
def updCell (mask : List Bool) (c : String) (v : Value) (p : String × List Value) :
    String × List Value :=
  if p.1 = c then (p.1, setMasked p.2 mask v) else p

/-- `df.loc[mask, c] = v` (lines 23-24 of the source): if column `c` exists it
is overwritten at the masked rows; if it does not exist, pandas
setting-with-enlargement appends a new column holding `v` at the masked rows
and `NaN` elsewhere.  No error is raised in either case. -/
def locSet (df : DataFrame) (mask : List Bool) (c : String) (v : Value) : DataFrame :=
  if (getCol df c).isSome then df.map (updCell mask c v)
  else df ++ [(c, mask.map (fun b => if b then v else Value.nan))]

/-- The boolean row mask of source line 17:
`df[code_col].astype(str).str.strip().str.lower() == code.strip().lower()`. -/
def matchMask (col : List Value) (code : String) : List Bool :=
  col.map (fun v => pyNorm (pyStr v) == pyNorm code)

/-- Zero-padded two-digit decimal rendering (for `%d` and `%y`). -/
def pad2 (n : Nat) : String := if n < 10 then "0" ++ toString n else toString n

/-- The C-locale month abbreviations used by `%b`. -/
def monthAbbrev (m : Nat) : String :=
  ["Jan", "Feb", "Mar", "Apr", "May", "Jun",
   "Jul", "Aug", "Sep", "Oct", "Nov", "Dec"].getD (m - 1) ""

/-- A calendar date as supplied by the date-input collaborator. -/
structure PyDate where
  year : Nat
  month : Nat
  day : Nat
deriving DecidableEq

/-- `date.strftime("%d-%b-%y")` (source line 22). -/
def strftimeDbY (d : PyDate) : String :=
  pad2 d.day ++ "-" ++ monthAbbrev d.month ++ "-" ++ pad2 (d.year % 100)

/-- The write pass of source lines 22-24: stamp the formatted date and the
transmittal value into the two write columns at the masked rows. -/
def writeStep (date : PyDate) (transmittal : String)
    (date_col transmittal_col : String) (mask : List Bool) (df : DataFrame) : DataFrame :=
  locSet (locSet df mask date_col (Value.str (strftimeDbY date)))
    mask transmittal_col (Value.str transmittal)

/-- The per-code loop of `update_excel` (source lines 15-25), with the match
count accumulated in `acc`.  For each code: build the mask from the lookup
column (a missing lookup column raises `KeyError`), and when at least one row
matches, write the formatted date and the transmittal value into the two write
columns at the masked rows and add the number of matching rows to the count. -/
def updateExcelGo (date : PyDate) (transmittal : String)
    (date_col transmittal_col code_col : String) :
    DataFrame → List String → Nat → Except String (DataFrame × Nat)
  | df, [], acc => .ok (df, acc)
  | df, code :: rest, acc =>
    match getCol df code_col with
    | none => .error ("KeyError: " ++ code_col)
    | some col =>
      if (matchMask col code).count true = 0 then
        updateExcelGo date transmittal date_col transmittal_col code_col df rest acc
      else
        updateExcelGo date transmittal date_col transmittal_col code_col
          (writeStep date transmittal date_col transmittal_col (matchMask col code) df)
          rest (acc + (matchMask col code).count true)

/-- `update_excel(df, codes, date, transmittal, date_col, transmittal_col,
code_col)` (source lines 9-27): returns the updated dataset and the number of
updated rows, or the surfaced pandas error. -/
def update_excel (df : DataFrame) (codes : List String) (date : PyDate)
    (transmittal : String) (date_col transmittal_col code_col : String) :
    Except String (DataFrame × Nat) :=
  updateExcelGo date transmittal date_col transmittal_col code_col df codes 0

/-- `re.split` on a single-character class: cut the string at every matching
character, keeping empty segments. -/
def splitOnPredAux (p : Char → Bool) : List Char → List Char → List String
  | [], acc => [⟨acc.reverse⟩]
  | c :: cs, acc =>
    if p c then ⟨acc.reverse⟩ :: splitOnPredAux p cs [] else splitOnPredAux p cs (c :: acc)

/-- `re.split(r'[\n,]', s)` as a function of the character predicate. -/
def pySplit (p : Char → Bool) (s : String) : List String := splitOnPredAux p s.data []

/-- Code-list preparation of `main` (source lines 99-100): split the pasted
blob on newlines and commas, trim each token, drop empty tokens. -/
def parseCodes (input : String) : List String :=
  ((pySplit (fun ch => ch == '\n' || ch == ',') input).map pyStrip).filter
    (fun s => s ≠ "")

/-- The outcome `main` signals to the end user after the update button press. -/
inductive ShellOutcome where
  | emptyCodeList
  | noMatches
  | updated (df : DataFrame) (count : Nat)
  | failure (msg : String)
deriving DecidableEq

/-- The decision logic of `main` (source lines 94-135): an empty code blob is
reported as "enter at least one code" (EmptyCodeList) before `update_excel`
runs; otherwise the codes are parsed and `update_excel` is called, a positive
count is reported as success, a zero count as "no matching codes found"
(NoMatches), and a raised error as the catch-all failure display. -/
def runUpdateShell (df : DataFrame) (codesInput : String) (date : PyDate)
    (transmittal : String) (date_col transmittal_col code_col : String) :
    ShellOutcome :=
  if codesInput = "" then .emptyCodeList
  else
    match update_excel df (parseCodes codesInput) date transmittal
        date_col transmittal_col code_col with
    | .error e => .failure e
    | .ok (df', n) => if 0 < n then .updated df' n else .noMatches

/-- Alignment invariant of a real `DataFrame`: every column has the same
number of rows `n`. -/
def Aligned (df : DataFrame) (n : Nat) : Prop := ∀ p ∈ df, (Prod.snd p).length = n

instance alignedDecidable (df : DataFrame) (n : Nat) : Decidable (Aligned df n) := by
  unfold Aligned
  infer_instance

/-- After a write pass with mask `m`, every transmittal-write column holds the
transmittal value at the masked rows, and (when the two write columns differ)
every date-write column holds the formatted date there.  Later write passes of
the same call preserve this, because they write the same two values. -/
def WrittenAt (date_col transmittal_col : String) (vd vt : Value) (m : List Bool)
    (df : DataFrame) : Prop :=
  (∀ p ∈ df, Prod.fst p = transmittal_col →
    ∀ i : Nat, m[i]? = some true → (Prod.snd p)[i]? = some vt) ∧
  (date_col ≠ transmittal_col → ∀ p ∈ df, Prod.fst p = date_col →
    ∀ i : Nat, m[i]? = some true → (Prod.snd p)[i]? = some vd)

/-- The three-row scenario dataset of the spec (§8). -/
def exDF : DataFrame :=
  [("Code", [Value.str "A1", Value.str "A2", Value.str "A3"]),
   ("Date", [Value.nan, Value.nan, Value.nan]),
   ("Transmittal", [Value.nan, Value.nan, Value.nan])]

/-- The expected result of the spec's two-code scenario on `exDF`. -/
def exDFExpected : DataFrame :=
  [("Code", [Value.str "A1", Value.str "A2", Value.str "A3"]),
   ("Date", [Value.str "11-May-25", Value.nan, Value.str "11-May-25"]),
   ("Transmittal", [Value.str "TR-07", Value.nan, Value.str "TR-07"])]

/-- The expected result of the duplicated-code scenario on `exDF`. -/
def exDFDup : DataFrame :=
  [("Code", [Value.str "A1", Value.str "A2", Value.str "A3"]),
   ("Date", [Value.str "11-May-25", Value.nan, Value.nan]),
   ("Transmittal", [Value.str "TR-07", Value.nan, Value.nan])]

/-- A dataset without a "Date" column, to exercise a missing write column. -/
def exNoDateDF : DataFrame :=
  [("Code", [Value.str "A1"]), ("Transmittal", [Value.nan])]

/-- A dataset whose lookup column has a missing (`NaN`) cell. -/
def exNanDF : DataFrame :=
  [("Code", [Value.nan, Value.str "A2"]),
   ("Date", [Value.nan, Value.nan]),
   ("Transmittal", [Value.nan, Value.nan])]

/-- A dataset whose lookup column contains the literal value "ABC". -/
def exABCDF : DataFrame :=
  [("Code", [Value.str "ABC"]), ("Date", [Value.nan]), ("Transmittal", [Value.nan])]

/-! ## Basic lemmas about the embedding -/

theorem lt_length_of_getElem? {α : Type} {l : List α} {i : Nat} {a : α}
    (h : l[i]? = some a) : i < l.length := by
  by_contra hc
  rw [List.getElem?_eq_none (Nat.le_of_not_lt hc)] at h
  exact Option.noConfusion h

theorem mem_of_getElem? {α : Type} {l : List α} {i : Nat} {a : α}
    (h : l[i]? = some a) : a ∈ l := by
  induction l generalizing i with
  | nil => exact Option.noConfusion h
  | cons x xs ih =>
    cases i with
    | zero => simp only [List.getElem?_cons_zero, Option.some.injEq] at h; simp [h]
    | succ j => simp only [List.getElem?_cons_succ] at h; exact List.mem_cons_of_mem _ (ih h)

theorem count_true_ne_zero {m : List Bool} {i : Nat} (h : m[i]? = some true) :
    m.count true ≠ 0 := by
  intro hc
  exact (List.count_eq_zero.mp hc) (mem_of_getElem? h)

theorem map_eq_self_of_mem {α : Type} {l : List α} {f : α → α}
    (h : ∀ x ∈ l, f x = x) : l.map f = l := by
  induction l with
  | nil => rfl
  | cons x xs ih =>
    simp only [List.map_cons, h x (List.mem_cons_self x xs),
      ih (fun y hy => h y (List.mem_cons_of_mem _ hy))]

theorem setMasked_length (col : List Value) (m : List Bool) (v : Value) :
    (setMasked col m v).length = min col.length m.length := by
  simp [setMasked]

theorem setMasked_getElem?_true {m : List Bool} {i : Nat} (col : List Value) (v : Value)
    (hm : m[i]? = some true) (hi : i < col.length) :
    (setMasked col m v)[i]? = some v := by
  induction col generalizing m i with
  | nil => exact absurd hi (by simp)
  | cons x xs ih =>
    cases m with
    | nil => exact Option.noConfusion hm
    | cons b bs =>
      cases i with
      | zero =>
        simp only [List.getElem?_cons_zero, Option.some.injEq] at hm
        simp [setMasked, hm]
      | succ j =>
        simp only [List.getElem?_cons_succ] at hm
        simpa [setMasked] using ih hm (by simpa using Nat.lt_of_succ_lt_succ hi)

theorem setMasked_getElem?_false {m : List Bool} {i : Nat} (col : List Value) (v : Value)
    (hm : m[i]? = some false) :
    (setMasked col m v)[i]? = col[i]? := by
  induction col generalizing m i with
  | nil => simp [setMasked]
  | cons x xs ih =>
    cases m with
    | nil => exact Option.noConfusion hm
    | cons b bs =>
      cases i with
      | zero =>
        simp only [List.getElem?_cons_zero, Option.some.injEq] at hm
        simp [setMasked, hm]
      | succ j =>
        simp only [List.getElem?_cons_succ] at hm
        simpa [setMasked] using ih hm

theorem setMasked_setMasked (col : List Value) (m : List Bool) (a b : Value) :
    setMasked (setMasked col m a) m b = setMasked col m b := by
  induction col generalizing m with
  | nil => cases m <;> rfl
  | cons x xs ih =>
    cases m with
    | nil => rfl
    | cons c cs =>
      cases c <;> simp [setMasked] <;> exact ih cs

theorem setMasked_eq_self {col : List Value} {m : List Bool} {v : Value}
    (hlen : col.length ≤ m.length)
    (h : ∀ i : Nat, m[i]? = some true → col[i]? = some v) :
    setMasked col m v = col := by
  induction col generalizing m with
  | nil => cases m <;> rfl
  | cons x xs ih =>
    cases m with
    | nil => exact absurd hlen (by simp)
    | cons b bs =>
      cases b with
      | false =>
        simp only [setMasked, List.zipWith_cons_cons, if_neg (Bool.false_ne_true)]
        have := ih (Nat.le_of_succ_le_succ hlen)
          (fun i hi => by simpa using h (i + 1) (by simpa using hi))
        simpa [setMasked] using this
      | true =>
        have hx : x = v := by simpa using h 0 (by simp)
        simp only [setMasked, List.zipWith_cons_cons, if_pos rfl, hx]
        have := ih (Nat.le_of_succ_le_succ hlen)
          (fun i hi => by simpa using h (i + 1) (by simpa using hi))
        simpa [setMasked] using this

theorem matchMask_length (col : List Value) (code : String) :
    (matchMask col code).length = col.length := List.length_map _ _

theorem matchMask_getElem? (col : List Value) (code : String) (i : Nat) :
    (matchMask col code)[i]? = (col[i]?).map (fun v => pyNorm (pyStr v) == pyNorm code) := by
  simp [matchMask]

theorem matchMask_congr {c₁ c₂ : String} (col : List Value) (h : pyNorm c₁ = pyNorm c₂) :
    matchMask col c₁ = matchMask col c₂ := by
  simp [matchMask, h]

/-! ## Lemmas about column lookup and masked writes -/

theorem getCol_mem {df : DataFrame} {c : String} {col : List Value}
    (h : getCol df c = some col) : (c, col) ∈ df := by
  induction df with
  | nil => exact Option.noConfusion h
  | cons p rest ih =>
    by_cases hp : p.1 = c
    · rw [getCol, if_pos hp] at h
      have : p = (c, col) := by
        cases p
        simp only [Option.some.injEq] at h
        simp_all
      simp [this]
    · rw [getCol, if_neg hp] at h
      exact List.mem_cons_of_mem _ (ih h)

theorem getCol_isSome_iff {df : DataFrame} {c : String} :
    (getCol df c).isSome ↔ c ∈ colNames df := by
  induction df with
  | nil => simp [getCol, colNames]
  | cons p rest ih =>
    by_cases hp : p.1 = c
    · simp [getCol, colNames, hp]
    · simp only [getCol, if_neg hp, colNames, List.map_cons, List.mem_cons]
      rw [ih]
      simp [colNames, Ne.symm hp]

theorem updCell_fst (m : List Bool) (c : String) (v : Value) (p : String × List Value) :
    (updCell m c v p).1 = p.1 := by
  unfold updCell
  by_cases hp : p.1 = c <;> simp [hp]

theorem getCol_map_updCell_self {df : DataFrame} {c : String} {col : List Value}
    (m : List Bool) (v : Value) (h : getCol df c = some col) :
    getCol (df.map (updCell m c v)) c = some (setMasked col m v) := by
  induction df with
  | nil => exact Option.noConfusion h
  | cons p rest ih =>
    by_cases hp : p.1 = c
    · rw [getCol, if_pos hp] at h
      simp only [Option.some.injEq] at h
      simp [getCol, updCell, hp, h]
    · rw [getCol, if_neg hp] at h
      simp only [List.map_cons, getCol, updCell, if_neg hp]
      exact ih h

theorem getCol_map_updCell_ne {df : DataFrame} {c c' : String}
    (m : List Bool) (v : Value) (hne : c ≠ c') :
    getCol (df.map (updCell m c' v)) c = getCol df c := by
  induction df with
  | nil => rfl
  | cons p rest ih =>
    by_cases hp : p.1 = c
    · have : (updCell m c' v p).1 = c := by rw [updCell_fst]; exact hp
      simp only [List.map_cons, getCol, if_pos this, if_pos hp]
      unfold updCell
      rw [if_neg (by rw [hp]; exact hne)]
    · have : ¬ (updCell m c' v p).1 = c := by rw [updCell_fst]; exact hp
      simp only [List.map_cons, getCol, if_neg this, if_neg hp]
      exact ih

theorem colNames_map_updCell (df : DataFrame) (m : List Bool) (c : String) (v : Value) :
    colNames (df.map (updCell m c v)) = colNames df := by
  simp only [colNames, List.map_map]
  exact List.map_congr_left (fun p _ => updCell_fst m c v p)

theorem getCol_append_ne {df : DataFrame} {q : String × List Value} {c : String}
    (h : q.1 ≠ c) : getCol (df ++ [q]) c = getCol df c := by
  induction df with
  | nil => simp [getCol, if_neg h]
  | cons p rest ih =>
    by_cases hp : p.1 = c
    · simp [getCol, if_pos hp]
    · simp only [List.cons_append, getCol, if_neg hp]
      exact ih

theorem getCol_locSet_self {df : DataFrame} {c : String} {col : List Value}
    (m : List Bool) (v : Value) (h : getCol df c = some col) :
    getCol (locSet df m c v) c = some (setMasked col m v) := by
  unfold locSet
  rw [if_pos (by rw [h]; rfl)]
  exact getCol_map_updCell_self m v h

theorem getCol_locSet_ne {df : DataFrame} {c c' : String}
    (m : List Bool) (v : Value) (hne : c ≠ c') :
    getCol (locSet df m c' v) c = getCol df c := by
  unfold locSet
  by_cases hg : (getCol df c').isSome
  · rw [if_pos hg]
    exact getCol_map_updCell_ne m v hne
  · rw [if_neg hg]
    exact getCol_append_ne (Ne.symm hne)

theorem isSome_locSet {df : DataFrame} {c : String}
    (m : List Bool) (c' : String) (v : Value) (h : (getCol df c).isSome) :
    (getCol (locSet df m c' v) c).isSome := by
  by_cases hcc : c = c'
  · subst hcc
    obtain ⟨col, hcol⟩ := Option.isSome_iff_exists.mp h
    rw [getCol_locSet_self m v hcol]
    rfl
  · rw [getCol_locSet_ne m v hcc]
    exact h

theorem colNames_locSet {df : DataFrame} {c : String}
    (m : List Bool) (v : Value) (h : (getCol df c).isSome) :
    colNames (locSet df m c v) = colNames df := by
  unfold locSet
  rw [if_pos h]
  exact colNames_map_updCell df m c v

theorem aligned_locSet {df : DataFrame} {n : Nat} {m : List Bool} (c : String) (v : Value)
    (hal : Aligned df n) (hm : m.length = n) : Aligned (locSet df m c v) n := by
  unfold locSet
  by_cases hg : (getCol df c).isSome
  · rw [if_pos hg]
    intro p hp
    obtain ⟨q, hq, hqp⟩ := List.mem_map.mp hp
    subst hqp
    unfold updCell
    by_cases hqc : q.1 = c
    · simp only [if_pos hqc]
      rw [setMasked_length, hal q hq, hm]
      exact Nat.min_self n
    · simp only [if_neg hqc]
      exact hal q hq
  · rw [if_neg hg]
    intro p hp
    rcases List.mem_append.mp hp with hp | hp
    · exact hal p hp
    · simp only [List.mem_singleton] at hp
      subst hp
      simp [hm]

theorem updCell_eq_of_ne {p : String × List Value} {c : String}
    (m : List Bool) (v : Value) (h : ¬ p.1 = c) : updCell m c v p = p := by
  unfold updCell
  rw [if_neg h]

theorem updCell_snd_of_eq {p : String × List Value} {c : String}
    (m : List Bool) (v : Value) (h : p.1 = c) :
    (updCell m c v p).2 = setMasked p.2 m v := by
  unfold updCell
  rw [if_pos h]

theorem updCell_snd_length {p : String × List Value} {n : Nat} {m : List Bool}
    (c : String) (v : Value) (hp : p.2.length = n) (hm : m.length = n) :
    (updCell m c v p).2.length = n := by
  unfold updCell
  by_cases hc : p.1 = c
  · rw [if_pos hc]
    simp only []
    rw [setMasked_length, hp, hm, Nat.min_self]
  · rw [if_neg hc]
    exact hp

/-! ## Lemmas about the composite write pass -/

theorem writeStep_eq_map {df : DataFrame} {dc tc : String} (date : PyDate) (t : String)
    (m : List Bool) (hdc : (getCol df dc).isSome) (htc : (getCol df tc).isSome) :
    writeStep date t dc tc m df =
      df.map (fun p =>
        updCell m tc (Value.str t) (updCell m dc (Value.str (strftimeDbY date)) p)) := by
  unfold writeStep
  unfold locSet
  rw [if_pos hdc]
  have h2 : (getCol (df.map (updCell m dc (Value.str (strftimeDbY date)))) tc).isSome := by
    by_cases hdt : tc = dc
    · subst hdt
      obtain ⟨col, hcol⟩ := Option.isSome_iff_exists.mp hdc
      rw [getCol_map_updCell_self m _ hcol]
      rfl
    · rw [getCol_map_updCell_ne m _ hdt]
      exact htc
  rw [if_pos h2, List.map_map]
  rfl

theorem getCol_writeStep_ne {df : DataFrame} {dc tc c : String} (date : PyDate) (t : String)
    (m : List Bool) (h1 : c ≠ dc) (h2 : c ≠ tc) :
    getCol (writeStep date t dc tc m df) c = getCol df c := by
  unfold writeStep
  rw [getCol_locSet_ne m _ h2, getCol_locSet_ne m _ h1]

theorem isSome_writeStep {df : DataFrame} {c : String} {dc tc : String} (date : PyDate)
    (t : String) (m : List Bool) (h : (getCol df c).isSome) :
    (getCol (writeStep date t dc tc m df) c).isSome := by
  unfold writeStep
  exact isSome_locSet m tc _ (isSome_locSet m dc _ h)

theorem colNames_writeStep {df : DataFrame} {dc tc : String} (date : PyDate) (t : String)
    (m : List Bool) (hdc : (getCol df dc).isSome) (htc : (getCol df tc).isSome) :
    colNames (writeStep date t dc tc m df) = colNames df := by
  unfold writeStep
  rw [colNames_locSet m _ (isSome_locSet m dc _ htc), colNames_locSet m _ hdc]

theorem aligned_writeStep {df : DataFrame} {n : Nat} {dc tc : String} (date : PyDate)
    (t : String) (m : List Bool) (hal : Aligned df n) (hm : m.length = n) :
    Aligned (writeStep date t dc tc m df) n := by
  unfold writeStep
  exact aligned_locSet tc _ (aligned_locSet dc _ hal hm) hm

theorem writtenAt_writeStep {df : DataFrame} {n : Nat} {dc tc : String} {m : List Bool}
    (date : PyDate) (t : String) (hal : Aligned df n) (hm : m.length = n)
    (hdc : (getCol df dc).isSome) (htc : (getCol df tc).isSome) :
    WrittenAt dc tc (Value.str (strftimeDbY date)) (Value.str t) m
      (writeStep date t dc tc m df) := by
  rw [writeStep_eq_map date t m hdc htc]
  constructor
  · intro p hp hptc i hi
    obtain ⟨q, hq, hqp⟩ := List.mem_map.mp hp
    have hin : i < n := by
      have := lt_length_of_getElem? hi
      rwa [hm] at this
    have hq1 : (updCell m dc (Value.str (strftimeDbY date)) q).1 = tc := by
      rw [updCell_fst]
      rw [← hqp] at hptc
      rw [← hptc, updCell_fst, updCell_fst]
    have hqlen : (updCell m dc (Value.str (strftimeDbY date)) q).2.length = n :=
      updCell_snd_length dc _ (hal q hq) hm
    rw [← hqp, updCell_snd_of_eq _ _ hq1]
    exact setMasked_getElem?_true _ _ hi (by rw [hqlen]; exact hin)
  · intro hne p hp hpdc i hi
    obtain ⟨q, hq, hqp⟩ := List.mem_map.mp hp
    have hin : i < n := by
      have := lt_length_of_getElem? hi
      rwa [hm] at this
    have hq0 : q.1 = dc := by
      rw [← hqp] at hpdc
      rw [← hpdc, updCell_fst, updCell_fst]
    have hq1 : ¬ (updCell m dc (Value.str (strftimeDbY date)) q).1 = tc := by
      rw [updCell_fst, hq0]
      exact hne
    rw [← hqp, updCell_eq_of_ne _ _ hq1, updCell_snd_of_eq _ _ hq0]
    exact setMasked_getElem?_true _ _ hi (by rw [hal q hq]; exact hin)

theorem writtenAt_preserve_writeStep {df : DataFrame} {n : Nat} {dc tc : String}
    {m m' : List Bool} (date : PyDate) (t : String)
    (hw : WrittenAt dc tc (Value.str (strftimeDbY date)) (Value.str t) m df)
    (hal : Aligned df n) (hm : m.length = n) (hm' : m'.length = n)
    (hdc : (getCol df dc).isSome) (htc : (getCol df tc).isSome) :
    WrittenAt dc tc (Value.str (strftimeDbY date)) (Value.str t) m
      (writeStep date t dc tc m' df) := by
  rw [writeStep_eq_map date t m' hdc htc]
  constructor
  · intro p hp hptc i hi
    obtain ⟨q, hq, hqp⟩ := List.mem_map.mp hp
    have hin : i < n := by
      have := lt_length_of_getElem? hi
      rwa [hm] at this
    have hq0 : q.1 = tc := by
      rw [← hqp] at hptc
      rw [← hptc, updCell_fst, updCell_fst]
    have hq1 : (updCell m' dc (Value.str (strftimeDbY date)) q).1 = tc := by
      rw [updCell_fst]
      exact hq0
    have hqlen : (updCell m' dc (Value.str (strftimeDbY date)) q).2.length = n :=
      updCell_snd_length dc _ (hal q hq) hm'
    rw [← hqp, updCell_snd_of_eq _ _ hq1]
    obtain ⟨b, hb⟩ : ∃ b, m'[i]? = some b :=
      ⟨m'.get ⟨i, by rw [hm']; exact hin⟩, by simp [List.getElem?_eq_getElem]⟩
    cases b with
    | true => exact setMasked_getElem?_true _ _ hb (by rw [hqlen]; exact hin)
    | false =>
      rw [setMasked_getElem?_false _ _ hb]
      by_cases hqd : q.1 = dc
      · rw [updCell_snd_of_eq _ _ hqd, setMasked_getElem?_false _ _ hb]
        exact hw.1 q hq hq0 i hi
      · rw [updCell_eq_of_ne _ _ hqd]
        exact hw.1 q hq hq0 i hi
  · intro hne p hp hpdc i hi
    obtain ⟨q, hq, hqp⟩ := List.mem_map.mp hp
    have hin : i < n := by
      have := lt_length_of_getElem? hi
      rwa [hm] at this
    have hq0 : q.1 = dc := by
      rw [← hqp] at hpdc
      rw [← hpdc, updCell_fst, updCell_fst]
    have hq1 : ¬ (updCell m' dc (Value.str (strftimeDbY date)) q).1 = tc := by
      rw [updCell_fst, hq0]
      exact hne
    rw [← hqp, updCell_eq_of_ne _ _ hq1, updCell_snd_of_eq _ _ hq0]
    obtain ⟨b, hb⟩ : ∃ b, m'[i]? = some b :=
      ⟨m'.get ⟨i, by rw [hm']; exact hin⟩, by simp [List.getElem?_eq_getElem]⟩
    cases b with
    | true => exact setMasked_getElem?_true _ _ hb (by rw [hal q hq]; exact hin)
    | false =>
      rw [setMasked_getElem?_false _ _ hb]
      exact hw.2 hne q hq hq0 i hi

theorem writeStep_eq_self {df : DataFrame} {n : Nat} {dc tc : String} {m : List Bool}
    (date : PyDate) (t : String)
    (hw : WrittenAt dc tc (Value.str (strftimeDbY date)) (Value.str t) m df)
    (hal : Aligned df n) (hm : m.length = n)
    (hdc : (getCol df dc).isSome) (htc : (getCol df tc).isSome) :
    writeStep date t dc tc m df = df := by
  rw [writeStep_eq_map date t m hdc htc]
  apply map_eq_self_of_mem
  intro p hp
  have hplen : p.2.length ≤ m.length := by rw [hal p hp, hm]
  by_cases hpd : p.1 = dc
  · by_cases hdt : dc = tc
    · have hpt : p.1 = tc := hpd.trans hdt
      have step : updCell m tc (Value.str t) (updCell m dc (Value.str (strftimeDbY date)) p)
          = (p.1, setMasked p.2 m (Value.str t)) := by
        unfold updCell
        rw [if_pos hpd]
        simp only [if_pos hpt, Prod.mk.injEq, true_and]
        exact setMasked_setMasked p.2 m _ _
      rw [step, setMasked_eq_self hplen (fun i hi => hw.1 p hp hpt i hi)]
    · have hs : setMasked p.2 m (Value.str (strftimeDbY date)) = p.2 :=
        setMasked_eq_self hplen (fun i hi => hw.2 hdt p hp hpd i hi)
      have h1 : ¬ (updCell m dc (Value.str (strftimeDbY date)) p).1 = tc := by
        rw [updCell_fst, hpd]
        exact hdt
      rw [updCell_eq_of_ne _ _ h1]
      unfold updCell
      rw [if_pos hpd, hs]
  · have step : updCell m dc (Value.str (strftimeDbY date)) p = p := updCell_eq_of_ne _ _ hpd
    rw [step]
    by_cases hpt : p.1 = tc
    · have hs : setMasked p.2 m (Value.str t) = p.2 :=
        setMasked_eq_self hplen (fun i hi => hw.1 p hp hpt i hi)
      unfold updCell
      rw [if_pos hpt, hs]
    · exact updCell_eq_of_ne _ _ hpt

/-! ## Lemmas about the per-code update loop -/

theorem go_shift (date : PyDate) (t : String) (dc tc cc : String) (codes : List String) :
    ∀ (df : DataFrame) (a acc : Nat),
      updateExcelGo date t dc tc cc df codes (a + acc) =
        match updateExcelGo date t dc tc cc df codes acc with
        | .ok (d, k) => .ok (d, a + k)
        | .error e => .error e := by
  induction codes with
  | nil => intro df a acc; simp [updateExcelGo]
  | cons code rest ih =>
    intro df a acc
    simp only [updateExcelGo]
    cases hg : getCol df cc with
    | none => rfl
    | some col =>
      simp only []
      by_cases h0 : (matchMask col code).count true = 0
      · simp only [if_pos h0]
        exact ih df a acc
      · simp only [if_neg h0]
        rw [Nat.add_assoc]
        exact ih _ a _

theorem go_getCol_of_ne (date : PyDate) (t : String) (dc tc cc : String) {c : String}
    (h1 : c ≠ dc) (h2 : c ≠ tc) :
    ∀ (codes : List String) (df df' : DataFrame) (acc cnt : Nat),
      updateExcelGo date t dc tc cc df codes acc = .ok (df', cnt) →
      getCol df' c = getCol df c := by
  intro codes
  induction codes with
  | nil =>
    intro df df' acc cnt h
    simp only [updateExcelGo, Except.ok.injEq, Prod.mk.injEq] at h
    rw [h.1]
  | cons code rest ih =>
    intro df df' acc cnt h
    simp only [updateExcelGo] at h
    cases hg : getCol df cc with
    | none => rw [hg] at h; exact Except.noConfusion h
    | some col =>
      rw [hg] at h
      simp only [] at h
      by_cases h0 : (matchMask col code).count true = 0
      · rw [if_pos h0] at h
        exact ih df df' acc cnt h
      · rw [if_neg h0] at h
        rw [ih _ df' _ cnt h]
        exact getCol_writeStep_ne date t _ h1 h2

theorem go_isSome (date : PyDate) (t : String) (dc tc cc : String) {c : String} :
    ∀ (codes : List String) (df df' : DataFrame) (acc cnt : Nat),
      (getCol df c).isSome →
      updateExcelGo date t dc tc cc df codes acc = .ok (df', cnt) →
      (getCol df' c).isSome := by
  intro codes
  induction codes with
  | nil =>
    intro df df' acc cnt hs h
    simp only [updateExcelGo, Except.ok.injEq, Prod.mk.injEq] at h
    rw [← h.1]
    exact hs
  | cons code rest ih =>
    intro df df' acc cnt hs h
    simp only [updateExcelGo] at h
    cases hg : getCol df cc with
    | none => rw [hg] at h; exact Except.noConfusion h
    | some col =>
      rw [hg] at h
      simp only [] at h
      by_cases h0 : (matchMask col code).count true = 0
      · rw [if_pos h0] at h
        exact ih df df' acc cnt hs h
      · rw [if_neg h0] at h
        exact ih _ df' _ cnt (isSome_writeStep date t _ hs) h

theorem go_aligned (date : PyDate) (t : String) (dc tc cc : String) {n : Nat} :
    ∀ (codes : List String) (df df' : DataFrame) (acc cnt : Nat),
      Aligned df n →
      updateExcelGo date t dc tc cc df codes acc = .ok (df', cnt) →
      Aligned df' n := by
  intro codes
  induction codes with
  | nil =>
    intro df df' acc cnt hal h
    simp only [updateExcelGo, Except.ok.injEq, Prod.mk.injEq] at h
    rw [← h.1]
    exact hal
  | cons code rest ih =>
    intro df df' acc cnt hal h
    simp only [updateExcelGo] at h
    cases hg : getCol df cc with
    | none => rw [hg] at h; exact Except.noConfusion h
    | some col =>
      rw [hg] at h
      simp only [] at h
      by_cases h0 : (matchMask col code).count true = 0
      · rw [if_pos h0] at h
        exact ih df df' acc cnt hal h
      · rw [if_neg h0] at h
        have hm : (matchMask col code).length = n := by
          rw [matchMask_length]
          exact hal _ (getCol_mem hg)
        exact ih _ df' _ cnt (aligned_writeStep date t _ hal hm) h

theorem go_colNames (date : PyDate) (t : String) (dc tc cc : String) :
    ∀ (codes : List String) (df df' : DataFrame) (acc cnt : Nat),
      (getCol df dc).isSome → (getCol df tc).isSome →
      updateExcelGo date t dc tc cc df codes acc = .ok (df', cnt) →
      colNames df' = colNames df := by
  intro codes
  induction codes with
  | nil =>
    intro df df' acc cnt _ _ h
    simp only [updateExcelGo, Except.ok.injEq, Prod.mk.injEq] at h
    rw [h.1]
  | cons code rest ih =>
    intro df df' acc cnt hdc htc h
    simp only [updateExcelGo] at h
    cases hg : getCol df cc with
    | none => rw [hg] at h; exact Except.noConfusion h
    | some col =>
      rw [hg] at h
      simp only [] at h
      by_cases h0 : (matchMask col code).count true = 0
      · rw [if_pos h0] at h
        exact ih df df' acc cnt hdc htc h
      · rw [if_neg h0] at h
        rw [ih _ df' _ cnt (isSome_writeStep date t _ hdc) (isSome_writeStep date t _ htc) h]
        exact colNames_writeStep date t _ hdc htc

theorem go_ok (date : PyDate) (t : String) (dc tc cc : String) :
    ∀ (codes : List String) (df : DataFrame) (acc : Nat),
      (getCol df cc).isSome →
      ∃ df' cnt, updateExcelGo date t dc tc cc df codes acc = .ok (df', cnt) := by
  intro codes
  induction codes with
  | nil => intro df acc _; exact ⟨df, acc, rfl⟩
  | cons code rest ih =>
    intro df acc hs
    obtain ⟨col, hcol⟩ := Option.isSome_iff_exists.mp hs
    simp only [updateExcelGo, hcol]
    by_cases h0 : (matchMask col code).count true = 0
    · rw [if_pos h0]
      exact ih df acc hs
    · rw [if_neg h0]
      exact ih _ _ (isSome_writeStep date t _ hs)

theorem go_no_matches (date : PyDate) (t : String) (dc tc cc : String) :
    ∀ (codes : List String) (df : DataFrame) (acc : Nat) (ccol : List Value),
      getCol df cc = some ccol →
      (∀ code ∈ codes, (matchMask ccol code).count true = 0) →
      updateExcelGo date t dc tc cc df codes acc = .ok (df, acc) := by
  intro codes
  induction codes with
  | nil => intro df acc ccol _ _; rfl
  | cons code rest ih =>
    intro df acc ccol hcol hnm
    simp only [updateExcelGo, hcol]
    rw [if_pos (hnm code (List.mem_cons_self code rest))]
    exact ih df acc ccol hcol (fun c hc => hnm c (List.mem_cons_of_mem _ hc))

theorem go_count (date : PyDate) (t : String) (dc tc cc : String)
    (hd : dc ≠ cc) (ht : tc ≠ cc) :
    ∀ (codes : List String) (df : DataFrame) (acc : Nat) (ccol : List Value),
      getCol df cc = some ccol →
      ∃ df', updateExcelGo date t dc tc cc df codes acc =
        .ok (df', acc + (codes.map (fun code => (matchMask ccol code).count true)).sum) := by
  intro codes
  induction codes with
  | nil => intro df acc ccol _; exact ⟨df, by simp [updateExcelGo]⟩
  | cons code rest ih =>
    intro df acc ccol hcol
    simp only [updateExcelGo, hcol, List.map_cons, List.sum_cons]
    by_cases h0 : (matchMask ccol code).count true = 0
    · rw [if_pos h0, h0, Nat.zero_add]
      exact ih df acc ccol hcol
    · rw [if_neg h0]
      have hcol2 : getCol (writeStep date t dc tc (matchMask ccol code) df) cc = some ccol := by
        rw [getCol_writeStep_ne date t _ (Ne.symm hd) (Ne.symm ht)]
        exact hcol
      obtain ⟨df', hdf'⟩ := ih _ (acc + (matchMask ccol code).count true) ccol hcol2
      rw [Nat.add_assoc] at hdf'
      exact ⟨df', hdf'⟩

theorem go_writtenAt (date : PyDate) (t : String) (dc tc cc : String) {n : Nat}
    {m : List Bool} (hm : m.length = n) :
    ∀ (codes : List String) (df df' : DataFrame) (acc cnt : Nat),
      WrittenAt dc tc (Value.str (strftimeDbY date)) (Value.str t) m df →
      Aligned df n → (getCol df dc).isSome → (getCol df tc).isSome →
      updateExcelGo date t dc tc cc df codes acc = .ok (df', cnt) →
      WrittenAt dc tc (Value.str (strftimeDbY date)) (Value.str t) m df' := by
  intro codes
  induction codes with
  | nil =>
    intro df df' acc cnt hw _ _ _ h
    simp only [updateExcelGo, Except.ok.injEq, Prod.mk.injEq] at h
    rw [← h.1]
    exact hw
  | cons code rest ih =>
    intro df df' acc cnt hw hal hdc htc h
    simp only [updateExcelGo] at h
    cases hg : getCol df cc with
    | none => rw [hg] at h; exact Except.noConfusion h
    | some col =>
      rw [hg] at h
      simp only [] at h
      by_cases h0 : (matchMask col code).count true = 0
      · rw [if_pos h0] at h
        exact ih df df' acc cnt hw hal hdc htc h
      · rw [if_neg h0] at h
        have hm' : (matchMask col code).length = n := by
          rw [matchMask_length]
          exact hal _ (getCol_mem hg)
        exact ih _ df' _ cnt
          (writtenAt_preserve_writeStep date t hw hal hm hm' hdc htc)
          (aligned_writeStep date t _ hal hm')
          (isSome_writeStep date t _ hdc) (isSome_writeStep date t _ htc) h

theorem go_fixpoint (date : PyDate) (t : String) (dc tc cc : String) {n : Nat}
    (hd : dc ≠ cc) (ht : tc ≠ cc) :
    ∀ (codes : List String) (df df1 : DataFrame) (acc cnt : Nat),
      Aligned df n → (getCol df cc).isSome →
      (getCol df dc).isSome → (getCol df tc).isSome →
      updateExcelGo date t dc tc cc df codes acc = .ok (df1, cnt) →
      ∃ k, cnt = acc + k ∧
        ∀ acc' : Nat, updateExcelGo date t dc tc cc df1 codes acc' = .ok (df1, acc' + k) := by
  intro codes
  induction codes with
  | nil =>
    intro df df1 acc cnt _ _ _ _ h
    simp only [updateExcelGo, Except.ok.injEq, Prod.mk.injEq] at h
    refine ⟨0, by rw [← h.2, Nat.add_zero], ?_⟩
    intro acc'
    simp [updateExcelGo, h.1]
  | cons code rest ih =>
    intro df df1 acc cnt hal hcc hdc htc h
    obtain ⟨col, hcol⟩ := Option.isSome_iff_exists.mp hcc
    simp only [updateExcelGo, hcol] at h
    have hcol1 : getCol df1 cc = some col := by
      by_cases h0 : (matchMask col code).count true = 0
      · rw [if_pos h0] at h
        rw [go_getCol_of_ne date t dc tc cc (Ne.symm hd) (Ne.symm ht) rest df df1 acc cnt h]
        exact hcol
      · rw [if_neg h0] at h
        rw [go_getCol_of_ne date t dc tc cc (Ne.symm hd) (Ne.symm ht) rest _ df1 _ cnt h,
          getCol_writeStep_ne date t _ (Ne.symm hd) (Ne.symm ht)]
        exact hcol
    by_cases h0 : (matchMask col code).count true = 0
    · rw [if_pos h0] at h
      obtain ⟨k, hk, hfix⟩ := ih df df1 acc cnt hal hcc hdc htc h
      refine ⟨k, hk, ?_⟩
      intro acc'
      simp only [updateExcelGo, hcol1]
      rw [if_pos h0]
      exact hfix acc'
    · rw [if_neg h0] at h
      have hmlen : (matchMask col code).length = n := by
        rw [matchMask_length]
        exact hal _ (getCol_mem hcol)
      have hal2 : Aligned (writeStep date t dc tc (matchMask col code) df) n :=
        aligned_writeStep date t _ hal hmlen
      have hcc2 : (getCol (writeStep date t dc tc (matchMask col code) df) cc).isSome :=
        isSome_writeStep date t _ hcc
      have hdc2 : (getCol (writeStep date t dc tc (matchMask col code) df) dc).isSome :=
        isSome_writeStep date t _ hdc
      have htc2 : (getCol (writeStep date t dc tc (matchMask col code) df) tc).isSome :=
        isSome_writeStep date t _ htc
      obtain ⟨k, hk, hfix⟩ := ih _ df1 _ cnt hal2 hcc2 hdc2 htc2 h
      refine ⟨(matchMask col code).count true + k, by rw [hk, Nat.add_assoc], ?_⟩
      intro acc'
      simp only [updateExcelGo, hcol1]
      rw [if_neg h0]
      have hw1 : WrittenAt dc tc (Value.str (strftimeDbY date)) (Value.str t)
          (matchMask col code) df1 :=
        go_writtenAt date t dc tc cc hmlen rest _ df1 _ cnt
          (writtenAt_writeStep date t hal hmlen hdc htc) hal2 hdc2 htc2 h
      have hstep : writeStep date t dc tc (matchMask col code) df1 = df1 :=
        writeStep_eq_self date t hw1
          (go_aligned date t dc tc cc rest _ df1 _ cnt hal2 h) hmlen
          (go_isSome date t dc tc cc rest _ df1 _ cnt hdc2 h)
          (go_isSome date t dc tc cc rest _ df1 _ cnt htc2 h)
      rw [hstep]
      rw [← Nat.add_assoc]
      exact hfix (acc' + (matchMask col code).count true)

theorem go_write_rule (date : PyDate) (t : String) (dc tc cc : String) {n : Nat}
    (hd : dc ≠ cc) (ht : tc ≠ cc) (hdt : dc ≠ tc) :
    ∀ (codes : List String) (df df' : DataFrame) (acc cnt : Nat) (ccol : List Value)
      (i : Nat) (code : String),
      Aligned df n → getCol df cc = some ccol →
      (getCol df dc).isSome → (getCol df tc).isSome →
      updateExcelGo date t dc tc cc df codes acc = .ok (df', cnt) →
      code ∈ codes → (matchMask ccol code)[i]? = some true →
      ∃ dcol tcol, getCol df' dc = some dcol ∧ getCol df' tc = some tcol ∧
        dcol[i]? = some (Value.str (strftimeDbY date)) ∧
        tcol[i]? = some (Value.str t) := by
  intro codes
  induction codes with
  | nil =>
    intro df df' acc cnt ccol i code _ _ _ _ _ hmem _
    exact absurd hmem (List.not_mem_nil code)
  | cons c0 rest ih =>
    intro df df' acc cnt ccol i code hal hcol hdc htc h hmem hmask
    simp only [updateExcelGo, hcol] at h
    have hmlen : (matchMask ccol c0).length = n := by
      rw [matchMask_length]
      exact hal _ (getCol_mem hcol)
    by_cases hc0 : (matchMask ccol c0)[i]? = some true
    · have h0 : ¬ (matchMask ccol c0).count true = 0 := count_true_ne_zero hc0
      rw [if_neg h0] at h
      have hw : WrittenAt dc tc (Value.str (strftimeDbY date)) (Value.str t)
          (matchMask ccol c0) df' :=
        go_writtenAt date t dc tc cc hmlen rest _ df' _ cnt
          (writtenAt_writeStep date t hal hmlen hdc htc)
          (aligned_writeStep date t _ hal hmlen)
          (isSome_writeStep date t _ hdc) (isSome_writeStep date t _ htc) h
      have hdc' : (getCol df' dc).isSome :=
        go_isSome date t dc tc cc rest _ df' _ cnt (isSome_writeStep date t _ hdc) h
      have htc' : (getCol df' tc).isSome :=
        go_isSome date t dc tc cc rest _ df' _ cnt (isSome_writeStep date t _ htc) h
      obtain ⟨dcol, hdcol⟩ := Option.isSome_iff_exists.mp hdc'
      obtain ⟨tcol, htcol⟩ := Option.isSome_iff_exists.mp htc'
      refine ⟨dcol, tcol, hdcol, htcol, ?_, ?_⟩
      · exact hw.2 hdt _ (getCol_mem hdcol) rfl i hc0
      · exact hw.1 _ (getCol_mem htcol) rfl i hc0
    · have hcode : code ∈ rest := by
        rcases List.mem_cons.mp hmem with hceq | hmem'
        · exact absurd (hceq ▸ hmask) hc0
        · exact hmem'
      by_cases h0 : (matchMask ccol c0).count true = 0
      · rw [if_pos h0] at h
        exact ih df df' acc cnt ccol i code hal hcol hdc htc h hcode hmask
      · rw [if_neg h0] at h
        exact ih _ df' _ cnt ccol i code
          (aligned_writeStep date t _ hal hmlen)
          (by rw [getCol_writeStep_ne date t _ (Ne.symm hd) (Ne.symm ht)]; exact hcol)
          (isSome_writeStep date t _ hdc) (isSome_writeStep date t _ htc) h hcode hmask

theorem getCol_writeStep_cell {df : DataFrame} {dc tc c : String} {m : List Bool} {i : Nat}
    {colW : List Value} (date : PyDate) (t : String)
    (hmf : m[i]? = some false)
    (hdc : (getCol df dc).isSome) (htc : (getCol df tc).isSome)
    (h2 : getCol (writeStep date t dc tc m df) c = some colW) :
    ∃ col₁, getCol df c = some col₁ ∧ colW[i]? = col₁[i]? := by
  unfold writeStep at h2
  by_cases hct : c = tc
  · subst hct
    obtain ⟨colT, hT⟩ := Option.isSome_iff_exists.mp htc
    by_cases hcd : c = dc
    · have hA : getCol (locSet df m dc (Value.str (strftimeDbY date))) c =
          some (setMasked colT m (Value.str (strftimeDbY date))) := by
        rw [← hcd]
        exact getCol_locSet_self m _ hT
      rw [getCol_locSet_self m _ hA] at h2
      simp only [Option.some.injEq] at h2
      refine ⟨colT, hT, ?_⟩
      rw [← h2, setMasked_getElem?_false _ _ hmf, setMasked_getElem?_false _ _ hmf]
    · have hA : getCol (locSet df m dc (Value.str (strftimeDbY date))) c = some colT := by
        rw [getCol_locSet_ne m _ hcd]
        exact hT
      rw [getCol_locSet_self m _ hA] at h2
      simp only [Option.some.injEq] at h2
      refine ⟨colT, hT, ?_⟩
      rw [← h2, setMasked_getElem?_false _ _ hmf]
  · by_cases hcd : c = dc
    · subst hcd
      obtain ⟨colD, hD⟩ := Option.isSome_iff_exists.mp hdc
      rw [getCol_locSet_ne m _ hct, getCol_locSet_self m _ hD] at h2
      simp only [Option.some.injEq] at h2
      refine ⟨colD, hD, ?_⟩
      rw [← h2, setMasked_getElem?_false _ _ hmf]
    · rw [getCol_locSet_ne m _ hct, getCol_locSet_ne m _ hcd] at h2
      exact ⟨colW, h2, rfl⟩

theorem go_unmatched_cell (date : PyDate) (t : String) (dc tc cc : String) {n : Nat}
    {df0 : DataFrame} {ccol0 : List Value} {i : Nat}
    (hal0 : Aligned df0 n) (hcc0 : getCol df0 cc = some ccol0) :
    ∀ (codes : List String) (df df' : DataFrame) (acc cnt : Nat),
      colNames df = colNames df0 → Aligned df n →
      (∀ c col col', getCol df0 c = some col → getCol df c = some col' →
        col'[i]? = col[i]?) →
      (∀ code ∈ codes, ¬ (matchMask ccol0 code)[i]? = some true) →
      (getCol df dc).isSome → (getCol df tc).isSome →
      updateExcelGo date t dc tc cc df codes acc = .ok (df', cnt) →
      ∀ c col col', getCol df0 c = some col → getCol df' c = some col' →
        col'[i]? = col[i]? := by
  intro codes
  induction codes with
  | nil =>
    intro df df' acc cnt _ _ hcell _ _ _ h
    simp only [updateExcelGo, Except.ok.injEq, Prod.mk.injEq] at h
    rw [← h.1]
    exact hcell
  | cons code rest ih =>
    intro df df' acc cnt hnames hal hcell hun hdc htc h
    have hccS : (getCol df cc).isSome := by
      rw [getCol_isSome_iff, hnames, ← getCol_isSome_iff, hcc0]
      rfl
    obtain ⟨ccol', hccol'⟩ := Option.isSome_iff_exists.mp hccS
    simp only [updateExcelGo, hccol'] at h
    have hccval : ccol'[i]? = ccol0[i]? := hcell cc ccol0 ccol' hcc0 hccol'
    have hmaski : ¬ (matchMask ccol' code)[i]? = some true := by
      rw [matchMask_getElem?, hccval, ← matchMask_getElem?]
      exact hun code (List.mem_cons_self code rest)
    have hun' : ∀ c ∈ rest, ¬ (matchMask ccol0 c)[i]? = some true :=
      fun c hc => hun c (List.mem_cons_of_mem _ hc)
    by_cases h0 : (matchMask ccol' code).count true = 0
    · rw [if_pos h0] at h
      exact ih df df' acc cnt hnames hal hcell hun' hdc htc h
    · rw [if_neg h0] at h
      have hmlen : (matchMask ccol' code).length = n := by
        rw [matchMask_length]
        exact hal _ (getCol_mem hccol')
      have hcell2 : ∀ c col col',
          getCol df0 c = some col →
          getCol (writeStep date t dc tc (matchMask ccol' code) df) c = some col' →
          col'[i]? = col[i]? := by
        intro c col colW hcol hcolW
        by_cases hi : i < n
        · have hmf : (matchMask ccol' code)[i]? = some false := by
            have hlt : i < (matchMask ccol' code).length := by rw [hmlen]; exact hi
            have hsome := List.getElem?_eq_getElem hlt
            cases hb : (matchMask ccol' code)[i] with
            | true => exact absurd (by rw [hsome, hb]) hmaski
            | false => rw [hsome, hb]
          obtain ⟨col₁, h₁, h₂⟩ := getCol_writeStep_cell date t hmf hdc htc hcolW
          rw [h₂]
          exact hcell c col col₁ hcol h₁
        · have hnone1 : col[i]? = none :=
            List.getElem?_eq_none (by rw [hal0 _ (getCol_mem hcol)]; exact Nat.le_of_not_lt hi)
          have halW : Aligned (writeStep date t dc tc (matchMask ccol' code) df) n :=
            aligned_writeStep date t _ hal hmlen
          have hnone2 : colW[i]? = none :=
            List.getElem?_eq_none (by rw [halW _ (getCol_mem hcolW)]; exact Nat.le_of_not_lt hi)
          rw [hnone1, hnone2]
      exact ih _ df' _ cnt
        ((colNames_writeStep date t _ hdc htc).trans hnames)
        (aligned_writeStep date t _ hal hmlen) hcell2 hun'
        (isSome_writeStep date t _ hdc) (isSome_writeStep date t _ htc) h

/-! ## The claimed properties -/

/-- C1 (counterexample): the claim says a missing `date_col` makes the update
fail with an InvalidColumn error and no mutation; but on a dataset with no
"Date" column, `update_excel` succeeds (count 1) and mutates the dataset —
pandas setting-with-enlargement silently creates the missing write column. -/
theorem missing_write_col_no_error :
    getCol exNoDateDF "Date" = none ∧
    update_excel exNoDateDF ["a1"] ⟨2025, 5, 11⟩ "TR-07" "Date" "Transmittal" "Code" =
      .ok ([("Code", [Value.str "A1"]), ("Transmittal", [Value.str "TR-07"]),
            ("Date", [Value.str "11-May-25"])], 1) := by
  constructor
  · rfl
  · decide

/-- C1 (amended): only a missing lookup column (`code_col`) aborts the update,
with the KeyError surfaced to the caller and no dataset returned (hence no
partial mutation); when the lookup column exists, the update never fails —
missing write columns are silently created instead of raising. -/
theorem invalid_column_behavior :
    (∀ (df : DataFrame) (code : String) (codes : List String) (date : PyDate)
      (t : String) (dc tc cc : String), getCol df cc = none →
      update_excel df (code :: codes) date t dc tc cc = .error ("KeyError: " ++ cc)) ∧
    (∀ (df : DataFrame) (codes : List String) (date : PyDate) (t : String)
      (dc tc cc : String), (getCol df cc).isSome →
      ∃ df' cnt, update_excel df codes date t dc tc cc = .ok (df', cnt)) := by
  constructor
  · intro df code codes date t dc tc cc h
    simp [update_excel, updateExcelGo, h]
  · intro df codes date t dc tc cc h
    exact go_ok date t dc tc cc codes df 0 h

/-- Witness for the amended C1 at concrete inputs. -/
theorem invalid_column_behavior_witness :
    (getCol exDF "Missing" = none ∧
      update_excel exDF ["a1"] ⟨2025, 5, 11⟩ "TR-07" "Date" "Transmittal" "Missing" =
        .error ("KeyError: " ++ "Missing")) ∧
    ((getCol exNoDateDF "Code").isSome ∧
      ∃ df' cnt, update_excel exNoDateDF ["a1"] ⟨2025, 5, 11⟩ "TR-07"
        "Date" "Transmittal" "Code" = .ok (df', cnt)) :=
  ⟨⟨by decide, invalid_column_behavior.1 exDF "a1" [] ⟨2025, 5, 11⟩ "TR-07"
      "Date" "Transmittal" "Missing" (by decide)⟩,
   ⟨by decide, invalid_column_behavior.2 exNoDateDF ["a1"] ⟨2025, 5, 11⟩ "TR-07"
      "Date" "Transmittal" "Code" (by decide)⟩⟩

/-- C2: the mask `update_excel` selects rows by (source line 17) marks exactly
the rows whose lookup value, converted to its string form, stripped of
leading/trailing whitespace and lower-cased, equals the code under the same
strip-and-lower-case normalization. -/
theorem matching_rule (col : List Value) (code : String) (i : Nat) (v : Value)
    (h : col[i]? = some v) :
    ((matchMask col code)[i]? = some true ↔
      pyLower (pyStrip (pyStr v)) = pyLower (pyStrip code)) := by
  rw [matchMask_getElem?, h]
  simp only [Option.map_some', Option.some.injEq, pyNorm]
  exact beq_iff_eq

/-- Witness for C2 at a concrete row. -/
theorem matching_rule_witness :
    (([Value.str " A1 "] : List Value)[0]? = some (Value.str " A1 ")) ∧
    ((matchMask [Value.str " A1 "] "a1")[0]? = some true ↔
      pyLower (pyStrip (pyStr (Value.str " A1 "))) = pyLower (pyStrip "a1")) :=
  ⟨rfl, matching_rule [Value.str " A1 "] "a1" 0 (Value.str " A1 ") rfl⟩

/-- C5: with the three named columns present, an empty code list returns the
dataset unchanged and a count of zero. -/
theorem empty_codes_noop (df : DataFrame) (date : PyDate) (t : String)
    (dc tc cc : String) (h1 : (getCol df dc).isSome) (h2 : (getCol df tc).isSome)
    (h3 : (getCol df cc).isSome) :
    update_excel df [] date t dc tc cc = .ok (df, 0) := rfl

/-- Witness for C5 on the scenario dataset. -/
theorem empty_codes_noop_witness :
    ((getCol exDF "Date").isSome ∧ (getCol exDF "Transmittal").isSome ∧
      (getCol exDF "Code").isSome) ∧
    update_excel exDF [] ⟨2025, 5, 11⟩ "TR-07" "Date" "Transmittal" "Code" =
      .ok (exDF, 0) :=
  ⟨⟨by decide, by decide, by decide⟩,
   empty_codes_noop exDF ⟨2025, 5, 11⟩ "TR-07" "Date" "Transmittal" "Code"
     (by decide) (by decide) (by decide)⟩

/-- C10: because every lookup value is coerced to its string form before
comparison, a missing (`NaN`) lookup cell matches the code "nan", a numeric
cell matches the code equal to its decimal text, and such a row is then
written with the date and transmittal values (shown concretely on `exNanDF`). -/
theorem coerced_string_matching :
    (∀ (col : List Value) (i : Nat), col[i]? = some Value.nan →
      (matchMask col "nan")[i]? = some true) ∧
    (∀ (col : List Value) (i : Nat) (k : Int), col[i]? = some (Value.int k) →
      (matchMask col (toString k))[i]? = some true) ∧
    update_excel exNanDF ["nan"] ⟨2025, 5, 11⟩ "TR-07" "Date" "Transmittal" "Code" =
      .ok ([("Code", [Value.nan, Value.str "A2"]),
            ("Date", [Value.str "11-May-25", Value.nan]),
            ("Transmittal", [Value.str "TR-07", Value.nan])], 1) := by
  refine ⟨?_, ?_, by decide⟩
  · intro col i h
    rw [matchMask_getElem?, h]
    simp [pyStr]
  · intro col i k h
    rw [matchMask_getElem?, h]
    simp [pyStr]

/-- Witness for C10 at a concrete cell. -/
theorem coerced_string_matching_witness :
    (([Value.nan] : List Value)[0]? = some Value.nan ∧
      (matchMask [Value.nan] "nan")[0]? = some true) ∧
    (([Value.int 42] : List Value)[0]? = some (Value.int 42) ∧
      (matchMask [Value.int 42] (toString (42 : Int)))[0]? = some true) :=
  ⟨⟨rfl, coerced_string_matching.1 [Value.nan] 0 rfl⟩,
   ⟨rfl, coerced_string_matching.2.1 [Value.int 42] 0 42 rfl⟩⟩

/-- C3: for every row matching any code (with distinct lookup and write
columns, all present), the result holds the canonical `strftime("%d-%b-%y")`
date string in the date-write column and the transmittal value verbatim in the
transmittal-write column; concretely, the spec scenario on `exDF` with codes
["a1", " A3 "] stamps rows A1 and A3 with Date "11-May-25" and Transmittal
"TR-07", leaves row A2 untouched and returns count 2. -/
theorem write_rule_and_scenario :
    (∀ (df df' : DataFrame) (n cnt : Nat) (codes : List String) (date : PyDate)
      (t : String) (dc tc cc : String) (ccol : List Value) (i : Nat) (code : String),
      Aligned df n → getCol df cc = some ccol →
      (getCol df dc).isSome → (getCol df tc).isSome →
      dc ≠ cc → tc ≠ cc → dc ≠ tc →
      update_excel df codes date t dc tc cc = .ok (df', cnt) →
      code ∈ codes → (matchMask ccol code)[i]? = some true →
      ∃ dcol tcol, getCol df' dc = some dcol ∧ getCol df' tc = some tcol ∧
        dcol[i]? = some (Value.str (strftimeDbY date)) ∧
        tcol[i]? = some (Value.str t)) ∧
    update_excel exDF ["a1", " A3 "] ⟨2025, 5, 11⟩ "TR-07" "Date" "Transmittal" "Code" =
      .ok (exDFExpected, 2) := by
  constructor
  · intro df df' n cnt codes date t dc tc cc ccol i code hal hcc hdc htc hd ht hdt h hmem hmask
    exact go_write_rule date t dc tc cc hd ht hdt codes df df' 0 cnt ccol i code
      hal hcc hdc htc h hmem hmask
  · decide

/-- Witness for the universal part of C3 at a concrete matching row. -/
theorem write_rule_and_scenario_witness :
    (Aligned exDF 3 ∧ getCol exDF "Code" = some [Value.str "A1", Value.str "A2", Value.str "A3"] ∧
      (getCol exDF "Date").isSome ∧ (getCol exDF "Transmittal").isSome ∧
      ("Date" : String) ≠ "Code" ∧ ("Transmittal" : String) ≠ "Code" ∧
      ("Date" : String) ≠ "Transmittal" ∧
      update_excel exDF ["a1"] ⟨2025, 5, 11⟩ "TR-07" "Date" "Transmittal" "Code" =
        .ok (exDFDup, 1) ∧
      "a1" ∈ ["a1"] ∧
      (matchMask [Value.str "A1", Value.str "A2", Value.str "A3"] "a1")[0]? = some true) ∧
    (∃ dcol tcol, getCol exDFDup "Date" = some dcol ∧
      getCol exDFDup "Transmittal" = some tcol ∧
      dcol[0]? = some (Value.str (strftimeDbY ⟨2025, 5, 11⟩)) ∧
      tcol[0]? = some (Value.str "TR-07")) :=
  ⟨⟨by decide, by decide, by decide, by decide, by decide, by decide, by decide,
    by decide, by decide, by decide⟩,
   write_rule_and_scenario.1 exDF exDFDup 3 1 ["a1"] ⟨2025, 5, 11⟩ "TR-07"
     "Date" "Transmittal" "Code" [Value.str "A1", Value.str "A2", Value.str "A3"] 0 "a1"
     (by decide) (by decide) (by decide) (by decide) (by decide) (by decide) (by decide)
     (by decide) (by decide) (by decide)⟩

/-- C4: when the lookup column is distinct from the write columns, the count
returned by `update_excel` is the sum, over the codes in input order, of the
number of rows matching each code; concretely, the duplicated code list
["a1", "a1"] on `exDF` returns count 2 while the A1 row holds the single
written date/transmittal pair. -/
theorem count_rule_and_double_count :
    (∀ (df : DataFrame) (codes : List String) (date : PyDate) (t : String)
      (dc tc cc : String) (ccol : List Value),
      getCol df cc = some ccol → dc ≠ cc → tc ≠ cc →
      ∃ df', update_excel df codes date t dc tc cc =
        .ok (df', (codes.map (fun code => (matchMask ccol code).count true)).sum)) ∧
    update_excel exDF ["a1", "a1"] ⟨2025, 5, 11⟩ "TR-07" "Date" "Transmittal" "Code" =
      .ok (exDFDup, 2) := by
  constructor
  · intro df codes date t dc tc cc ccol hcc hd ht
    obtain ⟨df', h⟩ := go_count date t dc tc cc hd ht codes df 0 ccol hcc
    rw [Nat.zero_add] at h
    exact ⟨df', h⟩
  · decide

/-- Witness for the universal part of C4 at concrete inputs. -/
theorem count_rule_and_double_count_witness :
    (getCol exDF "Code" = some [Value.str "A1", Value.str "A2", Value.str "A3"] ∧
      ("Date" : String) ≠ "Code" ∧ ("Transmittal" : String) ≠ "Code") ∧
    (∃ df', update_excel exDF ["a1", "a1"] ⟨2025, 5, 11⟩ "TR-07" "Date" "Transmittal" "Code" =
      .ok (df', ((["a1", "a1"] : List String).map
        (fun code => (matchMask [Value.str "A1", Value.str "A2", Value.str "A3"] code).count
          true)).sum)) :=
  ⟨⟨by decide, by decide, by decide⟩,
   count_rule_and_double_count.1 exDF ["a1", "a1"] ⟨2025, 5, 11⟩ "TR-07"
     "Date" "Transmittal" "Code" [Value.str "A1", Value.str "A2", Value.str "A3"]
     (by decide) (by decide) (by decide)⟩

/-- C6: when the named columns exist and no supplied code matches any row,
`update_excel` returns the dataset unchanged with count zero; the shell around
it then signals NoMatches, an outcome distinct from the EmptyCodeList signal
produced for an empty code blob. -/
theorem no_matches_outcome (df : DataFrame) (codesInput : String) (date : PyDate)
    (t : String) (dc tc cc : String) (ccol : List Value)
    (hcc : getCol df cc = some ccol)
    (hdc : (getCol df dc).isSome) (htc : (getCol df tc).isSome)
    (hinput : codesInput ≠ "")
    (hnm : ∀ code ∈ parseCodes codesInput, (matchMask ccol code).count true = 0) :
    update_excel df (parseCodes codesInput) date t dc tc cc = .ok (df, 0) ∧
    runUpdateShell df codesInput date t dc tc cc = .noMatches ∧
    runUpdateShell df "" date t dc tc cc = .emptyCodeList ∧
    ShellOutcome.noMatches ≠ ShellOutcome.emptyCodeList := by
  have hupd : update_excel df (parseCodes codesInput) date t dc tc cc = .ok (df, 0) :=
    go_no_matches date t dc tc cc (parseCodes codesInput) df 0 ccol hcc hnm
  refine ⟨hupd, ?_, by simp [runUpdateShell], by simp⟩
  unfold runUpdateShell
  rw [if_neg hinput, hupd]
  simp

/-- Witness for C6 on the scenario dataset with an unmatched code. -/
theorem no_matches_outcome_witness :
    (getCol exDF "Code" = some [Value.str "A1", Value.str "A2", Value.str "A3"] ∧
      (getCol exDF "Date").isSome ∧ (getCol exDF "Transmittal").isSome ∧
      ("nonexistent-code" : String) ≠ "" ∧
      (∀ code ∈ parseCodes "nonexistent-code",
        (matchMask [Value.str "A1", Value.str "A2", Value.str "A3"] code).count true = 0)) ∧
    (update_excel exDF (parseCodes "nonexistent-code") ⟨2025, 5, 11⟩ "TR-07"
        "Date" "Transmittal" "Code" = .ok (exDF, 0) ∧
      runUpdateShell exDF "nonexistent-code" ⟨2025, 5, 11⟩ "TR-07"
        "Date" "Transmittal" "Code" = .noMatches ∧
      runUpdateShell exDF "" ⟨2025, 5, 11⟩ "TR-07" "Date" "Transmittal" "Code" =
        .emptyCodeList ∧
      ShellOutcome.noMatches ≠ ShellOutcome.emptyCodeList) :=
  ⟨⟨by decide, by decide, by decide, by decide, by decide⟩,
   no_matches_outcome exDF "nonexistent-code" ⟨2025, 5, 11⟩ "TR-07"
     "Date" "Transmittal" "Code" [Value.str "A1", Value.str "A2", Value.str "A3"]
     (by decide) (by decide) (by decide) (by decide) (by decide)⟩

/-- C7: with the three named columns present, the updated dataset keeps the
same column names in the same order and the same per-column row count; every
column other than the two write columns is completely unchanged, and in rows
matched by no code every cell (write columns included) keeps its input
value. -/
theorem frame_guarantee (df df' : DataFrame) (n cnt : Nat) (codes : List String)
    (date : PyDate) (t : String) (dc tc cc : String) (ccol : List Value)
    (hal : Aligned df n) (hcc : getCol df cc = some ccol)
    (hdc : (getCol df dc).isSome) (htc : (getCol df tc).isSome)
    (h : update_excel df codes date t dc tc cc = .ok (df', cnt)) :
    colNames df' = colNames df ∧ Aligned df' n ∧
    (∀ c : String, c ≠ dc → c ≠ tc → getCol df' c = getCol df c) ∧
    (∀ i : Nat, (∀ code ∈ codes, ¬ (matchMask ccol code)[i]? = some true) →
      ∀ c col col', getCol df c = some col → getCol df' c = some col' →
        col'[i]? = col[i]?) :=
  ⟨go_colNames date t dc tc cc codes df df' 0 cnt hdc htc h,
   go_aligned date t dc tc cc codes df df' 0 cnt hal h,
   fun c h1 h2 => go_getCol_of_ne date t dc tc cc h1 h2 codes df df' 0 cnt h,
   fun i hun => go_unmatched_cell date t dc tc cc hal hcc codes df df' 0 cnt rfl hal
     (fun c col col' hc hc' => by
       rw [hc] at hc'
       cases Option.some.inj hc'
       rfl)
     hun hdc htc h⟩

/-- Witness for C7 on the spec scenario. -/
theorem frame_guarantee_witness :
    (Aligned exDF 3 ∧
      getCol exDF "Code" = some [Value.str "A1", Value.str "A2", Value.str "A3"] ∧
      (getCol exDF "Date").isSome ∧ (getCol exDF "Transmittal").isSome ∧
      update_excel exDF ["a1"] ⟨2025, 5, 11⟩ "TR-07" "Date" "Transmittal" "Code" =
        .ok (exDFDup, 1)) ∧
    (colNames exDFDup = colNames exDF ∧ Aligned exDFDup 3 ∧
      (∀ c : String, c ≠ "Date" → c ≠ "Transmittal" → getCol exDFDup c = getCol exDF c) ∧
      (∀ i : Nat, (∀ code ∈ (["a1"] : List String),
          ¬ (matchMask [Value.str "A1", Value.str "A2", Value.str "A3"] code)[i]? = some true) →
        ∀ c col col', getCol exDF c = some col → getCol exDFDup c = some col' →
          col'[i]? = col[i]?)) :=
  ⟨⟨by decide, by decide, by decide, by decide, by decide⟩,
   frame_guarantee exDF exDFDup 3 1 ["a1"] ⟨2025, 5, 11⟩ "TR-07" "Date" "Transmittal" "Code"
     [Value.str "A1", Value.str "A2", Value.str "A3"]
     (by decide) (by decide) (by decide) (by decide) (by decide)⟩

/-- C8: matching is invariant under trimming and case changes of a code — on a
dataset whose lookup column contains "ABC", updating with the code "  Abc "
and with the code "abc" produce identical results. -/
theorem code_normalization_invariance (df : DataFrame) (date : PyDate) (t : String)
    (dc tc cc : String) (ccol : List Value)
    (hcc : getCol df cc = some ccol) (hmem : Value.str "ABC" ∈ ccol) :
    update_excel df ["  Abc "] date t dc tc cc =
      update_excel df ["abc"] date t dc tc cc := by
  have hnorm : pyNorm "  Abc " = pyNorm "abc" := by decide
  unfold update_excel
  simp only [updateExcelGo, hcc]
  rw [matchMask_congr ccol hnorm]

/-- Witness for C8 on the "ABC" dataset. -/
theorem code_normalization_invariance_witness :
    (getCol exABCDF "Code" = some [Value.str "ABC"] ∧
      Value.str "ABC" ∈ [Value.str "ABC"]) ∧
    update_excel exABCDF ["  Abc "] ⟨2025, 5, 11⟩ "TR-07" "Date" "Transmittal" "Code" =
      update_excel exABCDF ["abc"] ⟨2025, 5, 11⟩ "TR-07" "Date" "Transmittal" "Code" :=
  ⟨⟨by decide, by decide⟩,
   code_normalization_invariance exABCDF ⟨2025, 5, 11⟩ "TR-07" "Date" "Transmittal" "Code"
     [Value.str "ABC"] (by decide) (by decide)⟩

/-- C9: when the lookup column is distinct from both write columns (and the
three columns exist in the aligned dataset), `update_excel` is idempotent:
running it again on its own output with the same arguments returns the same
dataset and the same count. -/
theorem update_idempotent (df df1 : DataFrame) (n n1 : Nat) (codes : List String)
    (date : PyDate) (t : String) (dc tc cc : String)
    (hal : Aligned df n)
    (hcc : (getCol df cc).isSome) (hdc : (getCol df dc).isSome)
    (htc : (getCol df tc).isSome)
    (hd : dc ≠ cc) (ht : tc ≠ cc)
    (h : update_excel df codes date t dc tc cc = .ok (df1, n1)) :
    update_excel df1 codes date t dc tc cc = .ok (df1, n1) := by
  obtain ⟨k, hk, hfix⟩ := go_fixpoint date t dc tc cc hd ht codes df df1 0 n1 hal hcc hdc htc h
  have h2 := hfix 0
  rw [Nat.zero_add] at h2
  rw [hk, Nat.zero_add]
  exact h2

/-- Witness for C9 on the spec scenario. -/
theorem update_idempotent_witness :
    (Aligned exDF 3 ∧ (getCol exDF "Code").isSome ∧ (getCol exDF "Date").isSome ∧
      (getCol exDF "Transmittal").isSome ∧ ("Date" : String) ≠ "Code" ∧
      ("Transmittal" : String) ≠ "Code" ∧
      update_excel exDF ["a1"] ⟨2025, 5, 11⟩ "TR-07" "Date" "Transmittal" "Code" =
        .ok (exDFDup, 1)) ∧
    update_excel exDFDup ["a1"] ⟨2025, 5, 11⟩ "TR-07" "Date" "Transmittal" "Code" =
      .ok (exDFDup, 1) :=
  ⟨⟨by decide, by decide, by decide, by decide, by decide, by decide, by decide⟩,
   update_idempotent exDF exDFDup 3 1 ["a1"] ⟨2025, 5, 11⟩ "TR-07" "Date" "Transmittal" "Code"
     (by decide) (by decide) (by decide) (by decide) (by decide) (by decide) (by decide)⟩

end Transmittal
